import Mathlib

/-!
Verification of the face-attendance core: embedding normalizer, cosine
similarity scorer, best-match selector, and the daily IN/OUT attendance
state machine.  The definitions below are shallow embeddings of the Python
source (`src/db.py`, `src/face_utils.py`,
`src/face_recognition/recognition_engine.py`,
`src/face_recognition/image_utils.py`,
`src/database/attendance_repository.py`).  SQLite rows become Lean
structures, the attendance table becomes a list of records, times and dates
become opaque naturals, and IEEE floating point values are modelled as real
numbers (rounding is abstracted; every property below is about exact
control flow, clamping and comparison structure, not float error).
Raised-and-caught Python exceptions are modelled with `Option`.
-/

namespace SmartAttendance

/-- Row of the `attendance` table created by `init_database` in `src/db.py`:
`student_id`, `date`, nullable `time_in` and `time_out` (the `id` and
`created_at` columns are never read or written by `mark_attendance`
beyond autoincrement, so they are omitted). -/
structure AttendanceRecord where
  student_id : Nat
  date : Nat
  time_in : Option Nat
  time_out : Option Nat
  deriving DecidableEq, Repr

/-- Result dictionary `{"success": ..., "message": ...}` returned by
`mark_attendance` in `src/db.py`. -/
structure MarkResult where
  success : Bool
  message : String
  deriving DecidableEq, Repr

/-- The `action` parameter of `mark_attendance` in `src/db.py`:
`"AUTO"`, `"IN"` or `"OUT"`. -/
inductive MarkAction where
  | AUTO
  | IN
  | OUT
  deriving DecidableEq, Repr

/-- Predicate of the SQL `WHERE student_id = ? AND date = ?` filter used by
`mark_attendance` in `src/db.py`. -/
def matchesKey (sid d : Nat) (r : AttendanceRecord) : Bool :=
  r.student_id == sid && r.date == d

/-- The `SELECT id, time_in, time_out FROM attendance WHERE student_id = ?
AND date = ?` + `fetchone()` of `mark_attendance` in `src/db.py`: first
matching row, if any. -/
def findToday (store : List AttendanceRecord) (sid d : Nat) :
    Option AttendanceRecord :=
  store.find? (matchesKey sid d)

/-- Row-level effect of `UPDATE attendance SET time_in = ?` on one row:
rows matching the `WHERE` filter get the new `time_in`, others are kept. -/
def setTimeIn (sid d t : Nat) (r : AttendanceRecord) : AttendanceRecord :=
  if matchesKey sid d r then { r with time_in := some t } else r

/-- Row-level effect of `UPDATE attendance SET time_out = ?` on one row. -/
def setTimeOut (sid d t : Nat) (r : AttendanceRecord) : AttendanceRecord :=
  if matchesKey sid d r then { r with time_out := some t } else r

/-- The `UPDATE attendance SET time_in = ? WHERE student_id = ? AND date = ?`
statement of `mark_attendance` in `src/db.py` (SQL updates every matching
row). -/
def updateTimeIn (store : List AttendanceRecord) (sid d t : Nat) :
    List AttendanceRecord :=
  store.map (setTimeIn sid d t)

/-- The `UPDATE attendance SET time_out = ? WHERE student_id = ? AND date = ?`
statement of `mark_attendance` in `src/db.py`. -/
def updateTimeOut (store : List AttendanceRecord) (sid d t : Nat) :
    List AttendanceRecord :=
  store.map (setTimeOut sid d t)

/-- Shallow embedding of `mark_attendance(student_id, action)` from
`src/db.py` (lines 285–371).  `d` is `date.today()` and `t` is the
formatted `datetime.now()` time, both passed explicitly; the returned pair
is (result dictionary, attendance table after the transaction).  Python's
truthiness test `if record['time_in']` on a nullable TEXT column is
`Option.isSome` (the stored times are non-empty strings). -/
def db_mark_attendance (store : List AttendanceRecord) (sid : Nat)
    (action : MarkAction) (d t : Nat) : MarkResult × List AttendanceRecord :=
  match findToday store sid d with
  | none =>
      (⟨true, s!"Entry marked at {t}"⟩,
        store ++ [⟨sid, d, some t, none⟩])
  | some record =>
      match action with
      | .AUTO =>
          if record.time_in.isSome && !record.time_out.isSome then
            (⟨true, s!"Exit marked at {t}"⟩, updateTimeOut store sid d t)
          else if record.time_in.isSome && record.time_out.isSome then
            (⟨false, "Attendance already complete for today"⟩, store)
          else
            (⟨true, s!"Entry marked at {t}"⟩, updateTimeIn store sid d t)
      | .IN =>
          if record.time_in.isSome then
            (⟨false, "Entry already marked today"⟩, store)
          else
            (⟨true, s!"Entry marked at {t}"⟩, updateTimeIn store sid d t)
      | .OUT =>
          if !record.time_in.isSome then
            (⟨false, "Cannot mark exit before entry"⟩, store)
          else if record.time_out.isSome then
            (⟨false, "Exit already marked today"⟩, store)
          else
            (⟨true, s!"Exit marked at {t}"⟩, updateTimeOut store sid d t)

/-- One call of the state machine, as fed by a driver loop: fourth
components are (student id, action, date, time).  Used to iterate
`db_mark_attendance` over a whole sequence of marking operations. -/
def runOps (store : List AttendanceRecord)
    (ops : List (Nat × MarkAction × Nat × Nat)) : List AttendanceRecord :=
  ops.foldl (fun st op => (db_mark_attendance st op.1 op.2.1 op.2.2.1 op.2.2.2).2) store

/-- Per-record half of the attendance invariant: `time_out` is only ever
set on a record whose `time_in` is set. -/
def recordWellFormed (r : AttendanceRecord) : Prop :=
  r.time_out.isSome → r.time_in.isSome

/-- Store invariant from `init_database` (`UNIQUE(student_id, date)`) plus
the out-after-in rule: no two rows share an (identity, date) key, and
every row is well-formed. -/
def storeInv (store : List AttendanceRecord) : Prop :=
  (∀ r ∈ store, recordWellFormed r) ∧
    store.Pairwise (fun a b => ¬(a.student_id = b.student_id ∧ a.date = b.date))

instance (r : AttendanceRecord) : Decidable (recordWellFormed r) := by
  unfold recordWellFormed; infer_instance

instance (store : List AttendanceRecord) : Decidable (storeInv store) := by
  unfold storeInv; infer_instance

/-- Row of the attendance table as written by
`AttendanceRepository.mark_attendance`
(`src/database/attendance_repository.py`): primary key `rid`, identity,
date, nullable times, plus the `status` and `marked_by` columns that this
variant inserts and updates. -/
structure RepoRecord where
  rid : Nat
  student_id : Nat
  date : Nat
  time_in : Option Nat
  time_out : Option Nat
  status : String
  marked_by : String
  deriving DecidableEq, Repr

/-- SQLite `AUTOINCREMENT` id for a fresh row: strictly larger than every
existing id. -/
def repoFreshId (store : List RepoRecord) : Nat :=
  (store.map (fun r => r.rid)).foldr max 0 + 1

/-- The `SELECT id, time_in, time_out FROM attendance WHERE student_id = ?
AND date = ?` + `fetchone()` of the repository variant. -/
def repoFindToday (store : List RepoRecord) (sid d : Nat) : Option RepoRecord :=
  store.find? (fun r => r.student_id == sid && r.date == d)

/-- Row-level effect of the repository's `UPDATE attendance SET time_out =
?, marked_by = ? WHERE id = ?`. -/
def repoSetTimeOut (rid0 : Nat) (mb : String) (t : Nat) (r : RepoRecord) : RepoRecord :=
  if r.rid == rid0 then { r with time_out := some t, marked_by := mb } else r

/-- Shallow embedding of `AttendanceRepository.mark_attendance(student_id,
status, marked_by)` from `src/database/attendance_repository.py` (lines
16–66).  `students` is the students table projected to (id, name); `d` and
`t` are `date.today()` and `datetime.now()`. -/
def repo_mark_attendance (students : List (Nat × String))
    (store : List RepoRecord) (sid : Nat) (status mb : String) (d t : Nat) :
    (Bool × String) × List RepoRecord :=
  match students.find? (fun s => s.1 == sid) with
  | none => ((false, "Student not found"), store)
  | some (_, sname) =>
      match repoFindToday store sid d with
      | some ex =>
          if ex.time_in.isSome && !ex.time_out.isSome then
            ((true, s!"Time-out marked for {sname}"),
              store.map (repoSetTimeOut ex.rid mb t))
          else
            ((false, s!"Attendance already marked for {sname} today"), store)
      | none =>
          ((true, s!"Attendance marked for {sname}"),
            store ++ [⟨repoFreshId store, sid, d, some t, none, status, mb⟩])

/-- Configured embedding width (`EMBEDDING_SIZE` in `src/config/settings.py`
and `src/db.py`, default 512). -/
def EMBEDDING_SIZE : Nat := 512

/-- Shallow embedding of `resize_embedding_to_512(embedding)` from
`src/face_utils.py` (lines 30–49) and, identically in behaviour,
`src/face_recognition/image_utils.py` (lines 36–56).  Elements are reals
standing for finite 32-bit floats (the `dtype=np.float32` cast is the
identity at this level).  A `none` argument stands for Python `None`,
whose `np.array(..., dtype=np.float32)` conversion raises and is caught,
yielding the all-zero vector; an input of wrong length is truncated to, or
right-padded with zeros up to, `EMBEDDING_SIZE`. -/
def resize_embedding_to_512 (emb : Option (List ℝ)) : List ℝ :=
  match emb with
  | none => List.replicate EMBEDDING_SIZE 0
  | some l =>
      if l.length = EMBEDDING_SIZE then l
      else if l.length > EMBEDDING_SIZE then l.take EMBEDDING_SIZE
      else l ++ List.replicate (EMBEDDING_SIZE - l.length) 0

/-- Sum of squares of a vector; `np.linalg.norm` is its square root. -/
def sumSquares (l : List ℝ) : ℝ := (l.map (fun x => x * x)).sum

/-- The `np.dot` of two 1-D arrays of equal length. -/
def dotProduct (a b : List ℝ) : ℝ := (List.zipWith (· * ·) a b).sum

/-- The `np.linalg.norm` of a 1-D array. -/
noncomputable def l2norm (l : List ℝ) : ℝ := Real.sqrt (sumSquares l)

/-- Shallow embedding of `cosine_similarity(emb1, emb2)` from
`src/face_utils.py` (lines 185–209): both arguments are first resized to
512, a zero norm short-circuits to 0.0, and the quotient is clamped into
[0, 1] by `max(0.0, min(1.0, similarity))`. -/
noncomputable def fu_cosine_similarity (emb1 emb2 : List ℝ) : ℝ :=
  let e1 := resize_embedding_to_512 (some emb1)
  let e2 := resize_embedding_to_512 (some emb2)
  if l2norm e1 = 0 ∨ l2norm e2 = 0 then 0
  else max 0 (min 1 (dotProduct e1 e2 / (l2norm e1 * l2norm e2)))

/-- Shallow embedding of `FaceRecognitionEngine.cosine_similarity` from
`src/face_recognition/recognition_engine.py` (lines 211–231): no
resizing; `np.dot` raises on mismatched lengths and the handler returns
0.0; a zero norm short-circuits to 0.0; the quotient is clamped by
`np.clip(similarity, -1.0, 1.0)` — to [-1, 1], not [0, 1]. -/
noncomputable def engine_cosine_similarity (emb1 emb2 : List ℝ) : ℝ :=
  if emb1.length ≠ emb2.length then 0
  else if l2norm emb1 = 0 ∨ l2norm emb2 = 0 then 0
  else min 1 (max (-1) (dotProduct emb1 emb2 / (l2norm emb1 * l2norm emb2)))

/-- The best-match dictionary `{student_id, name, roll_number}` built by
`FaceRecognitionEngine.recognize_face`. -/
structure EngineMatch where
  student_id : Nat
  name : String
  roll_number : String
  deriving DecidableEq, Repr

/-- One `(student_id, name, roll_number, known_embedding)` tuple of the
pool handed to `recognize_face`.  `embedding = none` models a stored value
whose array conversion raises inside `cosine_similarity`; the handler
there returns 0.0. -/
structure EngineCandidate where
  student_id : Nat
  name : String
  roll_number : String
  embedding : Option (List ℝ)

def mkMatch (c : EngineCandidate) : EngineMatch :=
  ⟨c.student_id, c.name, c.roll_number⟩

/-- Similarity the engine loop obtains for one candidate: the cosine score
of the probe against the stored embedding, or 0.0 when the stored value is
corrupt (the exception inside `cosine_similarity` is caught and 0.0
returned). -/
noncomputable def engineSim (input : List ℝ) (c : EngineCandidate) : ℝ :=
  match c.embedding with
  | none => 0
  | some e => engine_cosine_similarity input e

/-- Loop body of `recognize_face` (`src/face_recognition/recognition_engine.py`,
lines 257–272): strictly better similarity replaces the tracked best match. -/
noncomputable def engineStep (input : List ℝ) (acc : ℝ × Option EngineMatch)
    (c : EngineCandidate) : ℝ × Option EngineMatch :=
  if engineSim input c > acc.1 then (engineSim input c, some (mkMatch c)) else acc

/-- The full scan of `recognize_face`: `best_similarity` starts at 0.0,
`best_match` at `None`. -/
noncomputable def engineScan (input : List ℝ) (pool : List EngineCandidate) :
    ℝ × Option EngineMatch :=
  pool.foldl (engineStep input) (0, none)

/-- Shallow embedding of `FaceRecognitionEngine.recognize_face` from the
scan onward (lines 252–284; the upstream `generate_embedding` call is the
external model and is represented by the `input` probe).  The acceptance
test is `best_similarity >= threshold`.  When the pool produced no best
match but the threshold is still met (threshold ≤ 0), the success branch
subscripts `best_match['name']` on `None`; that `TypeError` is caught by
the outer handler, which returns `(False, None, 0.0)`. -/
noncomputable def recognize_face_core (input : List ℝ)
    (pool : List EngineCandidate) (threshold : ℝ) :
    Bool × Option EngineMatch × ℝ :=
  if threshold ≤ (engineScan input pool).1 then
    match (engineScan input pool).2 with
    | some m => (true, some m, (engineScan input pool).1)
    | none => (false, none, 0)
  else (false, none, (engineScan input pool).1)

/-- One joined row of `students` × `face_embeddings` as scanned by
`recognize_student` in `src/db.py`.  `embedding_blob = none` models a
stored text whose base64/`np.frombuffer` decoding raises; that row is
skipped by the loop's `except: continue`. -/
structure StudentRow where
  id : Nat
  name : String
  roll_number : String
  embedding_blob : Option (List ℝ)

/-- Result dictionary of `recognize_student`: on success
`{success, student, confidence}`, on failure `{success, message}` — the
absent keys are `none`. -/
structure RecoOutcome where
  success : Bool
  student : Option StudentRow
  confidence : Option ℝ
  message : Option String

/-- The `recognition_threshold = 0.6` local of `recognize_student`. -/
noncomputable def db_recognition_threshold : ℝ := 0.6

/-- Input-side dimension fix-up of `recognize_student`: resize only when
the length differs from `EMBEDDING_SIZE`. -/
def dbProbe (input : List ℝ) : List ℝ :=
  if input.length ≠ EMBEDDING_SIZE then resize_embedding_to_512 (some input) else input

/-- Stored-side dimension fix-up of `recognize_student`. -/
def dbStoredEmbedding (e : List ℝ) : List ℝ :=
  if e.length ≠ EMBEDDING_SIZE then resize_embedding_to_512 (some e) else e

/-- Similarity computed by `recognize_student`'s loop for one decodable
stored embedding. -/
noncomputable def dbRowSim (input e : List ℝ) : ℝ :=
  fu_cosine_similarity input (dbStoredEmbedding e)

/-- Loop body of `recognize_student` (`src/db.py`, lines 245–268): a row
whose embedding fails to decode is skipped; a decodable row replaces the
best match only when its similarity beats both the running best and the
threshold (strict `>` on both). -/
noncomputable def dbStep (input : List ℝ) (acc : ℝ × Option StudentRow)
    (row : StudentRow) : ℝ × Option StudentRow :=
  match row.embedding_blob with
  | none => acc
  | some e0 =>
      if dbRowSim input e0 > acc.1 ∧ dbRowSim input e0 > db_recognition_threshold then
        (dbRowSim input e0, some row)
      else acc

/-- The full scan of `recognize_student`: `best_similarity = 0`,
`best_match = None`. -/
noncomputable def dbScan (input : List ℝ) (rows : List StudentRow) :
    ℝ × Option StudentRow :=
  rows.foldl (dbStep input) (0, none)

/-- Shallow embedding of `recognize_student` from the embedding onward
(`src/db.py`, lines 216–283; `image_to_embedding_bgr` is the external
model, represented by `input`).  On success the confidence reported is
`best_similarity * 100`; on failure the dictionary carries only a
message — no confidence key. -/
noncomputable def recognize_student_core (input : List ℝ)
    (rows : List StudentRow) : RecoOutcome :=
  match (dbScan (dbProbe input) rows).2 with
  | some row =>
      ⟨true, some row, some ((dbScan (dbProbe input) rows).1 * 100), none⟩
  | none => ⟨false, none, none, some "Student not recognized"⟩

lemma findToday_eq_none_iff (store : List AttendanceRecord) (sid d : Nat) :
    findToday store sid d = none ↔
      ∀ r ∈ store, ¬(r.student_id = sid ∧ r.date = d) := by
  unfold findToday
  rw [List.find?_eq_none]
  constructor
  · intro h r hr hkey
    have := h r hr
    simp [matchesKey, hkey.1, hkey.2] at this
  · intro h r hr
    have := h r hr
    simp only [matchesKey, Bool.and_eq_true, beq_iff_eq] at *
    tauto

lemma matchesKey_iff (sid d : Nat) (r : AttendanceRecord) :
    matchesKey sid d r = true ↔ (r.student_id = sid ∧ r.date = d) := by
  simp [matchesKey]

lemma findToday_mem {store : List AttendanceRecord} {sid d : Nat}
    {rec : AttendanceRecord} (h : findToday store sid d = some rec) :
    rec ∈ store ∧ rec.student_id = sid ∧ rec.date = d := by
  refine ⟨List.mem_of_find?_eq_some h, ?_⟩
  have := List.find?_some h
  rwa [matchesKey_iff] at this

lemma matchesKey_eq_false_iff (sid d : Nat) (r : AttendanceRecord) :
    matchesKey sid d r = false ↔ ¬(r.student_id = sid ∧ r.date = d) := by
  rw [← Bool.not_eq_true, matchesKey_iff]

lemma findToday_append_of_none {store : List AttendanceRecord} {sid d : Nat}
    (h : findToday store sid d = none) (l : List AttendanceRecord) :
    findToday (store ++ l) sid d = findToday l sid d := by
  induction store with
  | nil => simp
  | cons a t ih =>
      unfold findToday at *
      cases hk : matchesKey sid d a with
      | false =>
          simp only [List.cons_append, List.find?_cons, hk] at *
          exact ih h
      | true => simp [List.find?_cons, hk] at h

lemma update_map_of_no_match {store : List AttendanceRecord} {sid d : Nat}
    (h : ∀ r ∈ store, ¬(r.student_id = sid ∧ r.date = d))
    (g : AttendanceRecord → AttendanceRecord) :
    store.map (fun r => if matchesKey sid d r then g r else r) = store := by
  induction store with
  | nil => rfl
  | cons a t ih =>
      have ha : matchesKey sid d a = false :=
        (matchesKey_eq_false_iff sid d a).mpr (h a (by simp))
      simp only [List.map_cons, ha, Bool.false_eq_true, if_false]
      rw [ih (fun r hr => h r (by simp [hr]))]

lemma map_setTimeOut_of_no_match {store : List AttendanceRecord} {sid d : Nat}
    (h : ∀ r ∈ store, ¬(r.student_id = sid ∧ r.date = d)) (t : Nat) :
    store.map (setTimeOut sid d t) = store :=
  update_map_of_no_match h _

lemma map_setTimeIn_of_no_match {store : List AttendanceRecord} {sid d : Nat}
    (h : ∀ r ∈ store, ¬(r.student_id = sid ∧ r.date = d)) (t : Nat) :
    store.map (setTimeIn sid d t) = store :=
  update_map_of_no_match h _

lemma findToday_unique {store : List AttendanceRecord} {sid d : Nat}
    {rec : AttendanceRecord}
    (hpw : store.Pairwise (fun a b => ¬(a.student_id = b.student_id ∧ a.date = b.date)))
    (h : findToday store sid d = some rec) :
    ∀ r ∈ store, r.student_id = sid → r.date = d → r = rec := by
  induction store with
  | nil => simp [findToday] at h
  | cons a t ih =>
      rw [List.pairwise_cons] at hpw
      cases hk : matchesKey sid d a with
      | true =>
          have ha : a = rec := by
            unfold findToday at h
            rw [List.find?_cons, hk] at h
            exact Option.some_injective _ h
          intro r hr hr1 hr2
          rcases List.mem_cons.mp hr with rfl | hrt
          · exact ha
          · exfalso
            have hak := (matchesKey_iff sid d a).mp hk
            exact hpw.1 r hrt ⟨hak.1.trans hr1.symm, hak.2.trans hr2.symm⟩
      | false =>
          have ht : findToday t sid d = some rec := by
            unfold findToday at h ⊢
            rwa [List.find?_cons, hk] at h
          intro r hr hr1 hr2
          rcases List.mem_cons.mp hr with rfl | hrt
          · exact absurd ⟨hr1, hr2⟩ ((matchesKey_eq_false_iff sid d r).mp hk)
          · exact ih hpw.2 ht r hrt hr1 hr2

lemma setTimeIn_key (sid d t : Nat) (r : AttendanceRecord) :
    (setTimeIn sid d t r).student_id = r.student_id ∧
      (setTimeIn sid d t r).date = r.date ∧
      (setTimeIn sid d t r).time_out = r.time_out := by
  unfold setTimeIn
  by_cases hk : matchesKey sid d r = true <;> simp [hk]

lemma setTimeOut_key (sid d t : Nat) (r : AttendanceRecord) :
    (setTimeOut sid d t r).student_id = r.student_id ∧
      (setTimeOut sid d t r).date = r.date ∧
      (setTimeOut sid d t r).time_in = r.time_in := by
  unfold setTimeOut
  by_cases hk : matchesKey sid d r = true <;> simp [hk]

lemma pairwise_map_key_preserving {store : List AttendanceRecord}
    (f : AttendanceRecord → AttendanceRecord)
    (hf : ∀ r, (f r).student_id = r.student_id ∧ (f r).date = r.date)
    (hpw : store.Pairwise (fun a b => ¬(a.student_id = b.student_id ∧ a.date = b.date))) :
    (store.map f).Pairwise
      (fun a b => ¬(a.student_id = b.student_id ∧ a.date = b.date)) := by
  refine List.Pairwise.map f ?_ hpw
  intro a b hab hc
  exact hab ⟨((hf a).1).symm.trans (hc.1.trans (hf b).1),
    ((hf a).2).symm.trans (hc.2.trans (hf b).2)⟩

lemma storeInv_updateTimeIn {store : List AttendanceRecord} (sid d t : Nat)
    (h : storeInv store) : storeInv (updateTimeIn store sid d t) := by
  obtain ⟨hwf, hpw⟩ := h
  constructor
  · intro r' hr'
    obtain ⟨r, hr, rfl⟩ := List.mem_map.mp hr'
    unfold setTimeIn
    by_cases hk : matchesKey sid d r = true
    · simp [hk, recordWellFormed]
    · simp only [hk, Bool.false_eq_true, if_false]
      exact hwf r hr
  · exact pairwise_map_key_preserving _
      (fun r => ⟨(setTimeIn_key sid d t r).1, (setTimeIn_key sid d t r).2.1⟩) hpw

lemma storeInv_updateTimeOut {store : List AttendanceRecord} {sid d : Nat}
    {rec : AttendanceRecord} (t : Nat) (h : storeInv store)
    (hfind : findToday store sid d = some rec)
    (hin : rec.time_in.isSome = true) :
    storeInv (updateTimeOut store sid d t) := by
  obtain ⟨hwf, hpw⟩ := h
  constructor
  · intro r' hr'
    obtain ⟨r, hr, rfl⟩ := List.mem_map.mp hr'
    unfold setTimeOut
    by_cases hk : matchesKey sid d r = true
    · have hkk := (matchesKey_iff sid d r).mp hk
      have : r = rec := findToday_unique hpw hfind r hr hkk.1 hkk.2
      subst this
      simp [recordWellFormed, hk, hin]
    · simp only [hk, Bool.false_eq_true, if_false]
      exact hwf r hr
  · exact pairwise_map_key_preserving _
      (fun r => ⟨(setTimeOut_key sid d t r).1, (setTimeOut_key sid d t r).2.1⟩) hpw

lemma storeInv_mark_step (store : List AttendanceRecord) (sid : Nat)
    (action : MarkAction) (d t : Nat) (h : storeInv store) :
    storeInv (db_mark_attendance store sid action d t).2 := by
  unfold db_mark_attendance
  cases hfind : findToday store sid d with
  | none =>
      obtain ⟨hwf, hpw⟩ := h
      have hnm := (findToday_eq_none_iff store sid d).mp hfind
      constructor
      · intro r hr
        rcases List.mem_append.mp hr with hl | hr2
        · exact hwf r hl
        · simp only [List.mem_singleton] at hr2
          subst hr2
          intro hx
          simp at hx
      · rw [List.pairwise_append]
        refine ⟨hpw, by simp, ?_⟩
        intro a ha b hb
        simp only [List.mem_singleton] at hb
        subst hb
        exact hnm a ha
  | some rec =>
      cases action with
      | AUTO =>
          by_cases h1 : rec.time_in.isSome = true
          · by_cases h2 : rec.time_out.isSome = true
            · simp only [h1, h2, Bool.not_true, Bool.and_false, Bool.and_true,
                Bool.false_eq_true, if_false, if_true]
              exact h
            · simp only [h1, Bool.not_eq_true] at h2
              simp only [h1, h2, Option.isSome_none, Bool.not_false, Bool.and_true,
                if_true]
              exact storeInv_updateTimeOut t h hfind h1
          · simp only [Bool.not_eq_true] at h1
            simp only [h1, Option.isSome_none, Bool.false_and, Bool.false_eq_true,
              if_false]
            exact storeInv_updateTimeIn sid d t h
      | IN =>
          by_cases h1 : rec.time_in.isSome = true
          · simp only [h1, if_true]
            exact h
          · simp only [Bool.not_eq_true] at h1
            simp only [h1, Option.isSome_none, Bool.false_eq_true, if_false]
            exact storeInv_updateTimeIn sid d t h
      | OUT =>
          by_cases h1 : rec.time_in.isSome = true
          · by_cases h2 : rec.time_out.isSome = true
            · simp only [h1, h2, Bool.not_true, Bool.false_eq_true, if_false, if_true]
              exact h
            · simp only [h1, h2, Bool.not_true, Bool.false_eq_true, if_false]
              exact storeInv_updateTimeOut t h hfind h1
          · simp only [Bool.not_eq_true] at h1
            simp only [h1, Option.isSome_none, Bool.not_false, if_true]
            exact h

lemma repoFindToday_mem {store : List RepoRecord} {sid d : Nat}
    {ex : RepoRecord} (h : repoFindToday store sid d = some ex) :
    ex ∈ store ∧ ex.student_id = sid ∧ ex.date = d := by
  refine ⟨List.mem_of_find?_eq_some h, ?_⟩
  have := List.find?_some h
  simpa using this

lemma sumSquares_nonneg (l : List ℝ) : 0 ≤ sumSquares l := by
  unfold sumSquares
  apply List.sum_nonneg
  intro x hx
  obtain ⟨y, _, rfl⟩ := List.mem_map.mp hx
  exact mul_self_nonneg y

lemma l2norm_nonneg (l : List ℝ) : 0 ≤ l2norm l := Real.sqrt_nonneg _

lemma l2norm_eq_zero_iff (l : List ℝ) : l2norm l = 0 ↔ sumSquares l = 0 := by
  unfold l2norm
  exact Real.sqrt_eq_zero (sumSquares_nonneg l)

lemma sumSquares_cons (a : ℝ) (t : List ℝ) :
    sumSquares (a :: t) = a * a + sumSquares t := by
  simp [sumSquares]

lemma sumSquares_eq_zero_iff (l : List ℝ) :
    sumSquares l = 0 ↔ ∀ x ∈ l, x = 0 := by
  induction l with
  | nil => simp [sumSquares]
  | cons a t ih =>
      rw [sumSquares_cons,
        add_eq_zero_iff_of_nonneg (mul_self_nonneg a) (sumSquares_nonneg t)]
      simp only [mul_self_eq_zero, ih, List.forall_mem_cons]

lemma resize_zero_of_zero {l : List ℝ} (h : ∀ x ∈ l, x = 0) :
    ∀ x ∈ resize_embedding_to_512 (some l), x = 0 := by
  unfold resize_embedding_to_512
  by_cases h1 : l.length = EMBEDDING_SIZE
  · simpa [h1] using h
  · by_cases h2 : l.length > EMBEDDING_SIZE
    · simp only [h1, h2, if_false, if_true]
      intro x hx
      exact h x (List.take_subset _ _ hx)
    · simp only [h1, h2, if_false]
      intro x hx
      rcases List.mem_append.mp hx with hx | hx
      · exact h x hx
      · exact List.eq_of_mem_replicate hx

lemma l2norm_resize_of_zero {l : List ℝ} (h : l2norm l = 0) :
    l2norm (resize_embedding_to_512 (some l)) = 0 := by
  rw [l2norm_eq_zero_iff] at h ⊢
  rw [sumSquares_eq_zero_iff] at h ⊢
  exact resize_zero_of_zero h

lemma resize_length (emb : Option (List ℝ)) :
    (resize_embedding_to_512 emb).length = EMBEDDING_SIZE := by
  match emb with
  | none => simp [resize_embedding_to_512]
  | some l =>
      unfold resize_embedding_to_512
      by_cases h1 : l.length = EMBEDDING_SIZE
      · simp [h1]
      · by_cases h2 : l.length > EMBEDDING_SIZE
        · simp only [h1, h2, if_false, if_true, List.length_take]
          exact Nat.min_eq_left (le_of_lt h2)
        · simp only [h1, h2, if_false, List.length_append, List.length_replicate]
          omega

lemma resize_of_length_eq {l : List ℝ} (h : l.length = EMBEDDING_SIZE) :
    resize_embedding_to_512 (some l) = l := by
  simp only [resize_embedding_to_512]
  rw [if_pos h]

lemma sumSquares_append (a b : List ℝ) :
    sumSquares (a ++ b) = sumSquares a + sumSquares b := by
  simp [sumSquares]

lemma sumSquares_replicate_zero (n : Nat) :
    sumSquares (List.replicate n (0 : ℝ)) = 0 := by
  rw [sumSquares_eq_zero_iff]
  intro x hx
  exact List.eq_of_mem_replicate hx

lemma dotProduct_self (l : List ℝ) : dotProduct l l = sumSquares l := by
  induction l with
  | nil => simp [dotProduct, sumSquares]
  | cons a t ih =>
      simp only [dotProduct, List.zipWith_cons_cons, List.sum_cons] at *
      rw [ih, sumSquares_cons]

lemma engine_cos_self_of_unit {l : List ℝ} (h : sumSquares l = 1) :
    engine_cosine_similarity l l = 1 := by
  have hn : l2norm l = 1 := by
    unfold l2norm
    rw [h, Real.sqrt_one]
  unfold engine_cosine_similarity
  rw [if_neg (by simp)]
  rw [if_neg (by rw [hn]; norm_num)]
  rw [hn, dotProduct_self, h]
  norm_num

lemma fu_cos_self_of_unit {l : List ℝ}
    (h : sumSquares (resize_embedding_to_512 (some l)) = 1) :
    fu_cosine_similarity l l = 1 := by
  have hn : l2norm (resize_embedding_to_512 (some l)) = 1 := by
    unfold l2norm
    rw [h, Real.sqrt_one]
  unfold fu_cosine_similarity
  rw [if_neg (by rw [hn]; norm_num)]
  rw [hn, dotProduct_self, h]
  norm_num

lemma sumSquares_single_one : sumSquares [(1 : ℝ)] = 1 := by
  simp [sumSquares]

lemma resize_single_one :
    resize_embedding_to_512 (some [(1 : ℝ)]) =
      [(1 : ℝ)] ++ List.replicate (EMBEDDING_SIZE - 1) 0 := by
  simp only [resize_embedding_to_512]
  rw [if_neg (by decide), if_neg (by decide)]
  rfl

lemma sumSquares_resize_single :
    sumSquares (resize_embedding_to_512 (some [(1 : ℝ)])) = 1 := by
  rw [resize_single_one, sumSquares_append, sumSquares_replicate_zero,
    sumSquares_single_one]
  norm_num

lemma dbRowSim_self_single :
    dbRowSim (dbProbe [(1 : ℝ)]) [(1 : ℝ)] = 1 := by
  have hz : dbProbe [(1 : ℝ)] = resize_embedding_to_512 (some [(1 : ℝ)]) := by
    unfold dbProbe
    rw [if_pos (by decide)]
  have hz2 : dbStoredEmbedding [(1 : ℝ)] = resize_embedding_to_512 (some [(1 : ℝ)]) := by
    unfold dbStoredEmbedding
    rw [if_pos (by decide)]
  unfold dbRowSim
  rw [hz, hz2]
  apply fu_cos_self_of_unit
  rw [resize_of_length_eq (resize_length (some [(1 : ℝ)]))]
  exact sumSquares_resize_single

lemma engineScan_go_none_zero (input : List ℝ) (l : List EngineCandidate) :
    ∀ (b₀ : ℝ) (m₀ : Option EngineMatch), (m₀ = none → b₀ = 0) →
      (l.foldl (engineStep input) (b₀, m₀)).2 = none →
      (l.foldl (engineStep input) (b₀, m₀)).1 = 0 := by
  induction l with
  | nil => intro b₀ m₀ hinv hnone; exact hinv hnone
  | cons c t ih =>
      intro b₀ m₀ hinv
      rw [List.foldl_cons]
      by_cases hs : engineSim input c > b₀
      · have hstep : engineStep input (b₀, m₀) c = (engineSim input c, some (mkMatch c)) := by
          unfold engineStep
          rw [if_pos hs]
        rw [hstep]
        exact ih _ _ (fun hcontra => by simp at hcontra)
      · have hstep : engineStep input (b₀, m₀) c = (b₀, m₀) := by
          unfold engineStep
          rw [if_neg hs]
        rw [hstep]
        exact ih _ _ hinv

lemma engineScan_go_spec (input : List ℝ) (l : List EngineCandidate) :
    ∀ (b₀ : ℝ) (m₀ : Option EngineMatch),
    (l.foldl (engineStep input) (b₀, m₀) = (b₀, m₀) ∧ ∀ c ∈ l, engineSim input c ≤ b₀)
    ∨ (∃ i, ∃ h : i < l.length,
        l.foldl (engineStep input) (b₀, m₀) =
          (engineSim input (l.get ⟨i, h⟩), some (mkMatch (l.get ⟨i, h⟩)))
        ∧ b₀ < engineSim input (l.get ⟨i, h⟩)
        ∧ (∀ j, ∀ hj : j < l.length,
            engineSim input (l.get ⟨j, hj⟩) ≤ engineSim input (l.get ⟨i, h⟩))
        ∧ (∀ j, ∀ hj : j < l.length, j < i →
            engineSim input (l.get ⟨j, hj⟩) < engineSim input (l.get ⟨i, h⟩))) := by
  induction l with
  | nil =>
      intro b₀ m₀
      exact Or.inl ⟨rfl, by simp⟩
  | cons c t ih =>
      intro b₀ m₀
      rw [List.foldl_cons]
      by_cases hs : engineSim input c > b₀
      · have hstep : engineStep input (b₀, m₀) c = (engineSim input c, some (mkMatch c)) := by
          unfold engineStep
          rw [if_pos hs]
        rw [hstep]
        rcases ih (engineSim input c) (some (mkMatch c)) with
          ⟨heq, hle⟩ | ⟨i, hi, heq, hgt, hmax, hfirst⟩
        · refine Or.inr ⟨0, by simp, heq, hs, ?_, ?_⟩
          · intro j hj
            cases j with
            | zero => exact le_refl _
            | succ j =>
                exact hle _ (List.get_mem t j (Nat.lt_of_succ_lt_succ hj))
          · intro j hj hj0
            exact absurd hj0 (Nat.not_lt_zero j)
        · refine Or.inr ⟨i + 1, Nat.succ_lt_succ hi, heq, lt_trans hs hgt, ?_, ?_⟩
          · intro j hj
            cases j with
            | zero => exact le_of_lt hgt
            | succ j => exact hmax j (Nat.lt_of_succ_lt_succ hj)
          · intro j hj hlt
            cases j with
            | zero => exact hgt
            | succ j => exact hfirst j (Nat.lt_of_succ_lt_succ hj) (Nat.lt_of_succ_lt_succ hlt)
      · have hstep : engineStep input (b₀, m₀) c = (b₀, m₀) := by
          unfold engineStep
          rw [if_neg hs]
        rw [hstep]
        rcases ih b₀ m₀ with ⟨heq, hle⟩ | ⟨i, hi, heq, hgt, hmax, hfirst⟩
        · refine Or.inl ⟨heq, ?_⟩
          intro x hx
          rcases List.mem_cons.mp hx with rfl | hx
          · exact not_lt.mp hs
          · exact hle x hx
        · refine Or.inr ⟨i + 1, Nat.succ_lt_succ hi, heq, hgt, ?_, ?_⟩
          · intro j hj
            cases j with
            | zero => exact le_of_lt (lt_of_le_of_lt (not_lt.mp hs) hgt)
            | succ j => exact hmax j (Nat.lt_of_succ_lt_succ hj)
          · intro j hj hlt
            cases j with
            | zero => exact lt_of_le_of_lt (not_lt.mp hs) hgt
            | succ j => exact hfirst j (Nat.lt_of_succ_lt_succ hj) (Nat.lt_of_succ_lt_succ hlt)

lemma dbStep_none (input : List ℝ) (b₀ : ℝ) (m₀ : Option StudentRow)
    (row : StudentRow) (hb : row.embedding_blob = none) :
    dbStep input (b₀, m₀) row = (b₀, m₀) := by
  unfold dbStep
  rw [hb]

lemma dbStep_some (input : List ℝ) (b₀ : ℝ) (m₀ : Option StudentRow)
    (row : StudentRow) (e0 : List ℝ) (hb : row.embedding_blob = some e0) :
    dbStep input (b₀, m₀) row =
      if dbRowSim input e0 > b₀ ∧ dbRowSim input e0 > db_recognition_threshold then
        (dbRowSim input e0, some row)
      else (b₀, m₀) := by
  unfold dbStep
  rw [hb]

lemma dbScan_go_keeps_some (input : List ℝ) (l : List StudentRow) :
    ∀ (b₀ : ℝ) (m₀ : Option StudentRow), m₀.isSome = true →
      ((l.foldl (dbStep input) (b₀, m₀)).2).isSome = true := by
  induction l with
  | nil => intro b₀ m₀ h; exact h
  | cons row t ih =>
      intro b₀ m₀ h
      rw [List.foldl_cons]
      cases hb : row.embedding_blob with
      | none =>
          rw [dbStep_none input b₀ m₀ row hb]
          exact ih b₀ m₀ h
      | some e0 =>
          rw [dbStep_some input b₀ m₀ row e0 hb]
          by_cases hcond : dbRowSim input e0 > b₀ ∧
              dbRowSim input e0 > db_recognition_threshold
          · rw [if_pos hcond]
            exact ih _ _ rfl
          · rw [if_neg hcond]
            exact ih b₀ m₀ h

lemma dbScan_go_some_gt (input : List ℝ) (l : List StudentRow) :
    ∀ (b₀ : ℝ) (m₀ : Option StudentRow),
      (m₀.isSome = true → db_recognition_threshold < b₀) →
      ((l.foldl (dbStep input) (b₀, m₀)).2).isSome = true →
      db_recognition_threshold < (l.foldl (dbStep input) (b₀, m₀)).1 := by
  induction l with
  | nil => intro b₀ m₀ hinv h; exact hinv h
  | cons row t ih =>
      intro b₀ m₀ hinv
      rw [List.foldl_cons]
      cases hb : row.embedding_blob with
      | none =>
          rw [dbStep_none input b₀ m₀ row hb]
          exact ih b₀ m₀ hinv
      | some e0 =>
          rw [dbStep_some input b₀ m₀ row e0 hb]
          by_cases hcond : dbRowSim input e0 > b₀ ∧
              dbRowSim input e0 > db_recognition_threshold
          · rw [if_pos hcond]
            exact ih _ _ (fun _ => hcond.2)
          · rw [if_neg hcond]
            exact ih b₀ m₀ hinv

lemma dbScan_go_finds (input : List ℝ) (l : List StudentRow) :
    ∀ (b₀ : ℝ) (m₀ : Option StudentRow), (m₀ = none → b₀ = 0) →
      (∃ row ∈ l, ∃ e, row.embedding_blob = some e ∧
        db_recognition_threshold < dbRowSim input e) →
      ((l.foldl (dbStep input) (b₀, m₀)).2).isSome = true := by
  induction l with
  | nil =>
      intro b₀ m₀ _ hex
      obtain ⟨row, hmem, _⟩ := hex
      exact absurd hmem (List.not_mem_nil row)
  | cons row0 t ih =>
      intro b₀ m₀ hinv hex
      rw [List.foldl_cons]
      obtain ⟨row, hmem, e, hblob, hsim⟩ := hex
      rcases List.mem_cons.mp hmem with rfl | hmt
      · -- the accepted-quality row is the head
        rw [dbStep_some input b₀ m₀ row e hblob]
        by_cases hcond : dbRowSim input e > b₀ ∧
            dbRowSim input e > db_recognition_threshold
        · rw [if_pos hcond]
          exact dbScan_go_keeps_some input t _ _ rfl
        · rw [if_neg hcond]
          -- the similarity clears the threshold, so only s ≤ b₀ can fail:
          -- then the accumulator already holds a match
          have hms : m₀.isSome = true := by
            by_contra hns
            have hm0 : m₀ = none := by
              cases m₀ with
              | none => rfl
              | some m => simp at hns
            have hb0 : b₀ = 0 := hinv hm0
            apply hcond
            constructor
            · rw [hb0]
              calc (0 : ℝ) < db_recognition_threshold := by
                    unfold db_recognition_threshold
                    norm_num
                _ < dbRowSim input e := hsim
            · exact hsim
          exact dbScan_go_keeps_some input t b₀ m₀ hms
      · -- the accepted-quality row is further on: step and recurse
        cases hb : row0.embedding_blob with
        | none =>
            rw [dbStep_none input b₀ m₀ row0 hb]
            exact ih b₀ m₀ hinv ⟨row, hmt, e, hblob, hsim⟩
        | some e0 =>
            rw [dbStep_some input b₀ m₀ row0 e0 hb]
            by_cases hcond : dbRowSim input e0 > b₀ ∧
                dbRowSim input e0 > db_recognition_threshold
            · rw [if_pos hcond]
              exact ih _ _ (fun hcontra => by simp at hcontra) ⟨row, hmt, e, hblob, hsim⟩
            · rw [if_neg hcond]
              exact ih b₀ m₀ hinv ⟨row, hmt, e, hblob, hsim⟩

/-- C2: full-day lifecycle of `mark_attendance` with the default `AUTO`
action, from `src/db.py` lines 285–371.  For an identity with no record
for today's date: the first accepted match inserts a record with `time_in`
set and `time_out` absent and reports entry marked; the second sets
`time_out` on that same record and reports exit marked; every third or
later match leaves the table untouched and returns the non-error outcome
"Attendance already complete for today". -/
theorem full_day_lifecycle (store : List AttendanceRecord) (sid d t1 t2 : Nat)
    (h : ∀ r ∈ store, ¬(r.student_id = sid ∧ r.date = d)) :
    db_mark_attendance store sid .AUTO d t1 =
      (⟨true, s!"Entry marked at {t1}"⟩, store ++ [⟨sid, d, some t1, none⟩])
    ∧ db_mark_attendance (store ++ [⟨sid, d, some t1, none⟩]) sid .AUTO d t2 =
      (⟨true, s!"Exit marked at {t2}"⟩, store ++ [⟨sid, d, some t1, some t2⟩])
    ∧ ∀ t3, db_mark_attendance (store ++ [⟨sid, d, some t1, some t2⟩]) sid .AUTO d t3 =
      (⟨false, "Attendance already complete for today"⟩,
        store ++ [⟨sid, d, some t1, some t2⟩]) := by
  have hnone : findToday store sid d = none := (findToday_eq_none_iff store sid d).mpr h
  have hkey : matchesKey sid d ⟨sid, d, some t1, none⟩ = true := by simp [matchesKey]
  have hkey2 : matchesKey sid d ⟨sid, d, some t1, some t2⟩ = true := by simp [matchesKey]
  refine ⟨?_, ?_, ?_⟩
  · unfold db_mark_attendance
    rw [hnone]
  · have hfind : findToday (store ++ [⟨sid, d, some t1, none⟩]) sid d =
        some ⟨sid, d, some t1, none⟩ := by
      rw [findToday_append_of_none hnone]
      simp [findToday, List.find?_cons, hkey]
    unfold db_mark_attendance
    rw [hfind]
    simp only [Option.isSome_some, Option.isSome_none, Bool.not_false, Bool.and_self,
      if_true]
    unfold updateTimeOut
    rw [List.map_append, map_setTimeOut_of_no_match h]
    simp [setTimeOut, hkey]
  · intro t3
    have hfind : findToday (store ++ [⟨sid, d, some t1, some t2⟩]) sid d =
        some ⟨sid, d, some t1, some t2⟩ := by
      rw [findToday_append_of_none hnone]
      simp [findToday, List.find?_cons, hkey2]
    unfold db_mark_attendance
    rw [hfind]
    simp

/-- C2 witness: the lifecycle theorem applied to the empty table for
student 1 on day 0 at times 5, 6, 7. -/
theorem full_day_lifecycle_witness :
    db_mark_attendance [] 1 .AUTO 0 5 =
      (⟨true, "Entry marked at 5"⟩, [⟨1, 0, some 5, none⟩])
    ∧ db_mark_attendance [⟨1, 0, some 5, none⟩] 1 .AUTO 0 6 =
      (⟨true, "Exit marked at 6"⟩, [⟨1, 0, some 5, some 6⟩])
    ∧ db_mark_attendance [⟨1, 0, some 5, some 6⟩] 1 .AUTO 0 7 =
      (⟨false, "Attendance already complete for today"⟩, [⟨1, 0, some 5, some 6⟩]) := by
  have h := full_day_lifecycle [] 1 0 5 6 (by simp)
  exact ⟨h.1, h.2.1, h.2.2 7⟩

/-- C3 counterexample: an explicit `OUT` action when no attendance record
exists at all for today does not fail with "cannot mark exit before
entry"; `mark_attendance` in `src/db.py` takes the no-record branch before
ever looking at the action, inserts a fresh record, and reports a
successful entry. -/
theorem out_with_no_record_marks_entry :
    db_mark_attendance [] 1 .OUT 0 5 =
      (⟨true, "Entry marked at 5"⟩, [⟨1, 0, some 5, none⟩]) := by
  rfl

/-- C3 amended: whenever a record for (identity, today) exists, the
explicit actions of `mark_attendance` (`src/db.py`) validate their
preconditions: `IN` fails with "Entry already marked today" if `time_in`
is set, `OUT` fails with "Cannot mark exit before entry" if `time_in` is
absent and with "Exit already marked today" if `time_out` is already set,
and every failed action returns the table unchanged.  (When no record
exists for today, the code instead inserts an entry record and reports
entry marked, whatever the action — see the counterexample.) -/
theorem explicit_action_guards (store : List AttendanceRecord)
    (sid d t : Nat) (rec : AttendanceRecord)
    (h : findToday store sid d = some rec) :
    (db_mark_attendance store sid .IN d t =
      if rec.time_in.isSome then
        (⟨false, "Entry already marked today"⟩, store)
      else
        (⟨true, s!"Entry marked at {t}"⟩, updateTimeIn store sid d t))
    ∧ (db_mark_attendance store sid .OUT d t =
      if rec.time_in.isSome then
        (if rec.time_out.isSome then
          (⟨false, "Exit already marked today"⟩, store)
         else
          (⟨true, s!"Exit marked at {t}"⟩, updateTimeOut store sid d t))
      else
        (⟨false, "Cannot mark exit before entry"⟩, store)) := by
  unfold db_mark_attendance
  rw [h]
  cases htin : rec.time_in <;> cases htout : rec.time_out <;> simp [htin, htout]

/-- C3 witness: guards evaluated on a one-row table where student 1
already has `time_in = 3` and no `time_out`: `IN` is refused with the
table unchanged, `OUT` marks the exit. -/
theorem explicit_action_guards_witness :
    db_mark_attendance [⟨1, 0, some 3, none⟩] 1 .IN 0 9 =
      (⟨false, "Entry already marked today"⟩, [⟨1, 0, some 3, none⟩])
    ∧ db_mark_attendance [⟨1, 0, some 3, none⟩] 1 .OUT 0 9 =
      (⟨true, "Exit marked at 9"⟩, [⟨1, 0, some 3, some 9⟩]) := by
  have h := explicit_action_guards [⟨1, 0, some 3, none⟩] 1 0 9 ⟨1, 0, some 3, none⟩ rfl
  constructor
  · simpa using h.1
  · have h2 := h.2
    simp only [Option.isSome_some, Option.isSome_none, if_true, Bool.false_eq_true,
      if_false] at h2
    rw [h2]
    rfl

/-- C8: every sequence of `AUTO`/`IN`/`OUT` calls of `mark_attendance`
(`src/db.py`) preserves the attendance-store invariant backed by
`init_database`'s `UNIQUE(student_id, date)` constraint: no record ever
has `time_out` set while `time_in` is absent, and no two records share an
(identity, date) pair. -/
theorem attendance_invariant_preserved (store : List AttendanceRecord)
    (ops : List (Nat × MarkAction × Nat × Nat)) (h : storeInv store) :
    storeInv (runOps store ops) := by
  induction ops generalizing store with
  | nil => exact h
  | cons op rest ih =>
      exact ih _ (storeInv_mark_step store op.1 op.2.1 op.2.2.1 op.2.2.2 h)

/-- C8 witness: the invariant, checked concretely on a five-operation
day-long run over two students starting from the empty table. -/
theorem attendance_invariant_preserved_witness :
    storeInv ([] : List AttendanceRecord) ∧
      storeInv (runOps []
        [(1, .AUTO, 0, 5), (1, .AUTO, 0, 6), (1, .AUTO, 0, 7),
          (2, .IN, 0, 8), (2, .OUT, 0, 9)]) :=
  ⟨by decide, attendance_invariant_preserved []
    [(1, .AUTO, 0, 5), (1, .AUTO, 0, 6), (1, .AUTO, 0, 7),
      (2, .IN, 0, 8), (2, .OUT, 0, 9)] (by decide)⟩

/-- C9: the InOnly-to-Complete transition touches nothing but the exit
fields of today's row for the matched identity.  For `mark_attendance` in
`src/db.py` (AUTO branch, lines 317–326): the table becomes a row-wise map
that changes only `time_out` of rows keyed (identity, today) and leaves
`student_id`, `date`, `time_in` and every other row untouched.  For the
repository variant (`src/database/attendance_repository.py`, lines 41–52,
update keyed on the row id, ids assumed unique as primary keys): only
`time_out` and `marked_by` of that row change, and `student_id`, `date`,
`time_in`, `status` and all rows of other identities or dates are
untouched. -/
theorem exit_transition_frame :
    (∀ (store : List AttendanceRecord) (sid d t : Nat) (rec : AttendanceRecord),
      findToday store sid d = some rec → rec.time_in.isSome = true →
      rec.time_out = none →
      db_mark_attendance store sid .AUTO d t =
        (⟨true, s!"Exit marked at {t}"⟩, store.map (setTimeOut sid d t))
      ∧ ∀ r ∈ store,
          (setTimeOut sid d t r).student_id = r.student_id
          ∧ (setTimeOut sid d t r).date = r.date
          ∧ (setTimeOut sid d t r).time_in = r.time_in
          ∧ (¬(r.student_id = sid ∧ r.date = d) → setTimeOut sid d t r = r))
    ∧ (∀ (students : List (Nat × String)) (store : List RepoRecord)
        (sid : Nat) (status mb : String) (d t sid0 : Nat) (sname : String)
        (ex : RepoRecord),
      students.find? (fun s => s.1 == sid) = some (sid0, sname) →
      repoFindToday store sid d = some ex → ex.time_in.isSome = true →
      ex.time_out = none → (store.map (fun r => r.rid)).Nodup →
      repo_mark_attendance students store sid status mb d t =
        ((true, s!"Time-out marked for {sname}"),
          store.map (repoSetTimeOut ex.rid mb t))
      ∧ ∀ r ∈ store,
          (repoSetTimeOut ex.rid mb t r).student_id = r.student_id
          ∧ (repoSetTimeOut ex.rid mb t r).date = r.date
          ∧ (repoSetTimeOut ex.rid mb t r).time_in = r.time_in
          ∧ (repoSetTimeOut ex.rid mb t r).status = r.status
          ∧ (¬(r.student_id = sid ∧ r.date = d) → repoSetTimeOut ex.rid mb t r = r)) := by
  constructor
  · intro store sid d t rec hfind hin hout
    constructor
    · unfold db_mark_attendance
      rw [hfind]
      simp [hin, hout, updateTimeOut]
    · intro r hr
      refine ⟨(setTimeOut_key sid d t r).1, (setTimeOut_key sid d t r).2.1,
        (setTimeOut_key sid d t r).2.2, ?_⟩
      intro hnk
      unfold setTimeOut
      rw [(matchesKey_eq_false_iff sid d r).mpr hnk]
      rfl
  · intro students store sid status mb d t sid0 sname ex hstu hfind hin hout hnodup
    obtain ⟨hmem, hsid, hdate⟩ := repoFindToday_mem hfind
    constructor
    · unfold repo_mark_attendance
      rw [hstu, hfind]
      simp [hin, hout]
    · intro r hr
      have hunch : r.rid = ex.rid → r = ex :=
        fun hre => List.inj_on_of_nodup_map hnodup hr hmem hre
      by_cases hre : r.rid = ex.rid
      · have : r = ex := hunch hre
        subst this
        refine ⟨?_, ?_, ?_, ?_, ?_⟩ <;>
          simp [repoSetTimeOut, hsid, hdate]
      · have hb : (r.rid == ex.rid) = false := by
          simp [hre]
        refine ⟨?_, ?_, ?_, ?_, fun _ => ?_⟩ <;> simp [repoSetTimeOut, hb]

/-- C9 witness: the frame theorem evaluated on concrete two-row tables:
in both variants only student 1's row for day 0 gains an exit time (and
`marked_by` in the repository), student 2's row is untouched. -/
theorem exit_transition_frame_witness :
    db_mark_attendance
        [⟨1, 0, some 3, none⟩, ⟨2, 0, some 4, none⟩] 1 .AUTO 0 9 =
      (⟨true, "Exit marked at 9"⟩,
        [⟨1, 0, some 3, some 9⟩, ⟨2, 0, some 4, none⟩])
    ∧ repo_mark_attendance [(1, "Ada")]
        [⟨10, 1, 0, some 3, none, "present", "system"⟩,
          ⟨11, 2, 0, some 4, none, "present", "system"⟩] 1 "present" "kiosk" 0 9 =
      ((true, "Time-out marked for Ada"),
        [⟨10, 1, 0, some 3, some 9, "present", "kiosk"⟩,
          ⟨11, 2, 0, some 4, none, "present", "system"⟩]) := by
  have h1 := exit_transition_frame.1
    [⟨1, 0, some 3, none⟩, ⟨2, 0, some 4, none⟩] 1 0 9 ⟨1, 0, some 3, none⟩
    rfl rfl rfl
  have h2 := exit_transition_frame.2 [(1, "Ada")]
    [⟨10, 1, 0, some 3, none, "present", "system"⟩,
      ⟨11, 2, 0, some 4, none, "present", "system"⟩] 1 "present" "kiosk" 0 9
    1 "Ada" ⟨10, 1, 0, some 3, none, "present", "system"⟩
    rfl rfl rfl rfl (by decide)
  constructor
  · rw [h1.1]
    rfl
  · rw [h2.1]
    rfl

/-- C5: the normalizer is total with a fixed output shape.  For every
input, `resize_embedding_to_512` returns a vector of exactly
`EMBEDDING_SIZE` elements; `None` and the empty vector give the all-zero
vector; and for every position `i < EMBEDDING_SIZE` the output holds the
input's `i`-th element when `i` is within the input (pass-through /
truncation to the first `EMBEDDING_SIZE` elements) and zero otherwise
(right-padding). -/
theorem normalizer_shape_invariant (l : List ℝ) (i : Nat)
    (hi : i < EMBEDDING_SIZE) :
    (resize_embedding_to_512 (some l)).length = EMBEDDING_SIZE
    ∧ (resize_embedding_to_512 none).length = EMBEDDING_SIZE
    ∧ resize_embedding_to_512 none = List.replicate EMBEDDING_SIZE 0
    ∧ resize_embedding_to_512 (some []) = List.replicate EMBEDDING_SIZE 0
    ∧ (resize_embedding_to_512 (some l)).getD i 0 =
        (if i < l.length then l.getD i 0 else 0) := by
  have hempty : resize_embedding_to_512 (some ([] : List ℝ)) =
      List.replicate EMBEDDING_SIZE 0 := by
    have h0 : ¬(([] : List ℝ).length = EMBEDDING_SIZE) := by decide
    have h1 : ¬(([] : List ℝ).length > EMBEDDING_SIZE) := by decide
    simp only [resize_embedding_to_512]
    rw [if_neg h0, if_neg h1]
    simp
  refine ⟨?_, by simp [resize_embedding_to_512], rfl, hempty, ?_⟩
  · unfold resize_embedding_to_512
    by_cases h1 : l.length = EMBEDDING_SIZE
    · simp [h1]
    · by_cases h2 : l.length > EMBEDDING_SIZE
      · simp only [h1, h2, if_false, if_true, List.length_take]
        exact Nat.min_eq_left (le_of_lt h2)
      · have hle : l.length ≤ EMBEDDING_SIZE := le_of_not_lt h2
        simp only [h1, h2, if_false, List.length_append, List.length_replicate]
        omega
  · unfold resize_embedding_to_512
    by_cases h1 : l.length = EMBEDDING_SIZE
    · simp only [h1, if_true]
      rw [if_pos (h1 ▸ hi)]
    · by_cases h2 : l.length > EMBEDDING_SIZE
      · have hil : i < l.length := lt_trans hi h2
        simp only [h1, h2, if_false, if_true, if_pos hil]
        rw [List.getD_eq_getElem?_getD, List.getD_eq_getElem?_getD,
          List.getElem?_take, if_pos hi]
      · have hle : l.length ≤ EMBEDDING_SIZE := le_of_not_lt h2
        simp only [h1, h2, if_false]
        by_cases hil : i < l.length
        · rw [if_pos hil, List.getD_eq_getElem?_getD, List.getD_eq_getElem?_getD,
            List.getElem?_append, if_pos hil]
        · rw [if_neg hil, List.getD_eq_getElem?_getD,
            List.getElem?_append, if_neg hil]
          have hrep : i - l.length < EMBEDDING_SIZE - l.length := by omega
          rw [List.getElem?_replicate, if_pos hrep]
          rfl

/-- C5 witness: the shape theorem at the length-2 input [5, 6] and
position 1: the output keeps the in-range element. -/
theorem normalizer_shape_invariant_witness :
    (resize_embedding_to_512 (some [(5 : ℝ), 6])).length = EMBEDDING_SIZE
    ∧ (resize_embedding_to_512 (some [(5 : ℝ), 6])).getD 1 0 = 6 := by
  have h := normalizer_shape_invariant [(5 : ℝ), 6] 1 (by norm_num [EMBEDDING_SIZE])
  refine ⟨h.1, ?_⟩
  rw [h.2.2.2.2]
  norm_num

/-- C4 counterexample: the engine scorer does not floor negative cosines
to 0.0: on the opposite one-dimensional vectors [1] and [-1] it returns
exactly -1, outside [0, 1], because `np.clip(similarity, -1.0, 1.0)`
clamps to [-1, 1]. -/
theorem engine_scorer_returns_negative :
    engine_cosine_similarity [(1 : ℝ)] [(-1 : ℝ)] = -1 ∧
      engine_cosine_similarity [(1 : ℝ)] [(-1 : ℝ)] < 0 := by
  have hs : sumSquares [(1 : ℝ)] = 1 := by
    simp [sumSquares]
  have hs2 : sumSquares [(-1 : ℝ)] = 1 := by
    simp [sumSquares]
  have hn : l2norm [(1 : ℝ)] = 1 := by
    unfold l2norm
    rw [hs, Real.sqrt_one]
  have hn2 : l2norm [(-1 : ℝ)] = 1 := by
    unfold l2norm
    rw [hs2, Real.sqrt_one]
  have hd : dotProduct [(1 : ℝ)] [(-1 : ℝ)] = -1 := by
    simp [dotProduct]
  constructor
  · unfold engine_cosine_similarity
    rw [if_neg (by simp)]
    rw [if_neg (by rw [hn, hn2]; norm_num)]
    rw [hn, hn2, hd]
    norm_num
  · unfold engine_cosine_similarity
    rw [if_neg (by simp)]
    rw [if_neg (by rw [hn, hn2]; norm_num)]
    rw [hn, hn2, hd]
    norm_num

/-- C4 amended: the `face_utils` scorer does return a value in [0, 1] for
all inputs (negative cosines are floored to 0.0 by its clamp), but the
engine scorer (`recognition_engine.py`) clamps with `np.clip(..., -1.0,
1.0)` and so is only bounded within [-1, 1]; a negative cosine is
returned as is there. -/
theorem scorer_range (a b : List ℝ) :
    (0 ≤ fu_cosine_similarity a b ∧ fu_cosine_similarity a b ≤ 1)
    ∧ (-1 ≤ engine_cosine_similarity a b ∧ engine_cosine_similarity a b ≤ 1) := by
  constructor
  · unfold fu_cosine_similarity
    by_cases h : l2norm (resize_embedding_to_512 (some a)) = 0 ∨
        l2norm (resize_embedding_to_512 (some b)) = 0
    · simp [h]
    · simp only [h, if_false]
      exact ⟨le_max_left _ _, max_le zero_le_one (min_le_left _ _)⟩
  · unfold engine_cosine_similarity
    by_cases h1 : a.length ≠ b.length
    · simp [h1]
    · simp only [h1, if_false]
      by_cases h2 : l2norm a = 0 ∨ l2norm b = 0
      · simp [h2]
      · simp only [h2, if_false]
        refine ⟨le_min (by norm_num) (le_max_left _ _), min_le_left _ _⟩

/-- C7: degenerate zero-norm inputs are safe in both scorers: whenever
either argument has L2 norm exactly 0 (in particular the all-zero
vector), both `cosine_similarity` implementations return 0.0 through their
explicit zero-norm guard instead of dividing by zero. -/
theorem scorer_zero_norm_safety (a b : List ℝ)
    (h : l2norm a = 0 ∨ l2norm b = 0) :
    fu_cosine_similarity a b = 0 ∧ engine_cosine_similarity a b = 0 := by
  constructor
  · unfold fu_cosine_similarity
    rw [if_pos]
    rcases h with h | h
    · exact Or.inl (l2norm_resize_of_zero h)
    · exact Or.inr (l2norm_resize_of_zero h)
  · unfold engine_cosine_similarity
    by_cases h1 : a.length ≠ b.length
    · rw [if_pos h1]
    · rw [if_neg h1, if_pos h]

/-- C7 witness: the all-zero two-dimensional vector against [3]: both
scorers return 0. -/
theorem scorer_zero_norm_safety_witness :
    l2norm [(0 : ℝ), 0] = 0
    ∧ fu_cosine_similarity [(0 : ℝ), 0] [(3 : ℝ)] = 0
    ∧ engine_cosine_similarity [(0 : ℝ), 0] [(3 : ℝ)] = 0 := by
  have h0 : l2norm [(0 : ℝ), 0] = 0 := by
    unfold l2norm
    have : sumSquares [(0 : ℝ), 0] = 0 := by simp [sumSquares]
    rw [this, Real.sqrt_zero]
  have h := scorer_zero_norm_safety [(0 : ℝ), 0] [(3 : ℝ)] (Or.inl h0)
  exact ⟨h0, h.1, h.2⟩

/-- C1 counterexample: in `FaceRecognitionEngine.recognize_face` the
acceptance test is `best_similarity >= threshold`, not strict `>`: with a
single candidate whose similarity is exactly 1 and threshold exactly 1,
the result is `matched = True`, where the claim requires `matched =
false` at equality. -/
theorem engine_accepts_at_exact_threshold :
    engineSim [(1 : ℝ)] ⟨7, "A", "R1", some [(1 : ℝ)]⟩ = 1
    ∧ (recognize_face_core [(1 : ℝ)] [⟨7, "A", "R1", some [(1 : ℝ)]⟩] 1).1 = true := by
  have hsim : engineSim [(1 : ℝ)] ⟨7, "A", "R1", some [(1 : ℝ)]⟩ = 1 := by
    show engine_cosine_similarity [(1 : ℝ)] [(1 : ℝ)] = 1
    exact engine_cos_self_of_unit sumSquares_single_one
  have hscan : engineScan [(1 : ℝ)] [⟨7, "A", "R1", some [(1 : ℝ)]⟩] =
      (1, some ⟨7, "A", "R1"⟩) := by
    unfold engineScan
    rw [List.foldl_cons, List.foldl_nil]
    unfold engineStep
    rw [hsim]
    rw [if_pos (by norm_num)]
    rfl
  refine ⟨hsim, ?_⟩
  unfold recognize_face_core
  rw [hscan]
  rw [if_pos (by norm_num)]

/-- C1 amended: the two selectors gate differently.
`recognize_student` in `src/db.py` accepts only a similarity strictly
above its 0.6 threshold (a successful result implies the tracked best
similarity exceeds 0.6, so equality is rejected), while
`FaceRecognitionEngine.recognize_face` accepts with `>=`: it reports
`matched = True` exactly when the scanned best similarity reaches the
threshold and a best match exists, so a best similarity exactly equal to
the threshold is accepted there. -/
theorem selector_threshold_boundary (input : List ℝ)
    (pool : List EngineCandidate) (thr : ℝ) (rows : List StudentRow) :
    ((recognize_face_core input pool thr).1 = true ↔
      (thr ≤ (engineScan input pool).1 ∧ ((engineScan input pool).2).isSome = true))
    ∧ ((recognize_student_core input rows).success = true →
        db_recognition_threshold < (dbScan (dbProbe input) rows).1) := by
  constructor
  · unfold recognize_face_core
    by_cases hthr : thr ≤ (engineScan input pool).1
    · rw [if_pos hthr]
      cases hm : (engineScan input pool).2 with
      | some m => simp [hthr]
      | none => simp [hthr]
    · rw [if_neg hthr]
      simp [hthr]
  · intro hsucc
    unfold recognize_student_core at hsucc
    cases hm : (dbScan (dbProbe input) rows).2 with
    | none => rw [hm] at hsucc; simp at hsucc
    | some row =>
        have hisSome : ((dbScan (dbProbe input) rows).2).isSome = true := by
          rw [hm]; rfl
        exact dbScan_go_some_gt (dbProbe input) rows 0 none
          (fun hc => by simp at hc) hisSome

/-- C1 witness: a matching single-row pool: `recognize_student` succeeds
and the boundary theorem yields that its best similarity strictly exceeds
the 0.6 threshold. -/
theorem selector_threshold_boundary_witness :
    (recognize_student_core [(1 : ℝ)] [⟨1, "A", "R1", some [(1 : ℝ)]⟩]).success = true
    ∧ db_recognition_threshold <
        (dbScan (dbProbe [(1 : ℝ)]) [⟨1, "A", "R1", some [(1 : ℝ)]⟩]).1 := by
  have hscan : dbScan (dbProbe [(1 : ℝ)]) [⟨1, "A", "R1", some [(1 : ℝ)]⟩] =
      (1, some ⟨1, "A", "R1", some [(1 : ℝ)]⟩) := by
    unfold dbScan
    rw [List.foldl_cons, List.foldl_nil]
    rw [dbStep_some _ _ _ _ [(1 : ℝ)] rfl]
    rw [dbRowSim_self_single]
    rw [if_pos ⟨by norm_num, by unfold db_recognition_threshold; norm_num⟩]
  have hsucc : (recognize_student_core [(1 : ℝ)]
      [⟨1, "A", "R1", some [(1 : ℝ)]⟩]).success = true := by
    unfold recognize_student_core
    rw [hscan]
  exact ⟨hsucc,
    (selector_threshold_boundary [(1 : ℝ)] [] 0 [⟨1, "A", "R1", some [(1 : ℝ)]⟩]).2 hsucc⟩

/-- C6 counterexample: `recognize_student` in `src/db.py` reports no
confidence at all when it fails: on an empty pool the returned dictionary
is `{"success": False, "message": ...}` with no confidence key, where the
claim requires a confidence equal to the best similarity (0.0 for an
empty pool). -/
theorem db_failure_reports_no_confidence :
    (recognize_student_core [(1 : ℝ)] []).success = false
    ∧ (recognize_student_core [(1 : ℝ)] []).confidence = none := by
  exact ⟨rfl, rfl⟩

/-- C6 amended: `recognize_face` scans the whole pool, returns the single
highest-scoring candidate (only candidates with positive similarity are
ever selected, and on exact ties the first-seen candidate in pool order
wins), and its reported confidence always equals the best similarity of
the scan — also when `matched = false`, and 0.0 for an empty pool.
`recognize_student` however reports a confidence only on success, and then
as `best_similarity * 100`; on failure its dictionary carries only the
message "Student not recognized" and no confidence. -/
theorem selector_best_of_pool (input : List ℝ) (pool : List EngineCandidate)
    (thr : ℝ) (rows : List StudentRow) :
    (recognize_face_core input pool thr).2.2 = (engineScan input pool).1
    ∧ ((engineScan input pool = (0, none) ∧ ∀ c ∈ pool, engineSim input c ≤ 0)
      ∨ (∃ i, ∃ h : i < pool.length,
          engineScan input pool =
            (engineSim input (pool.get ⟨i, h⟩), some (mkMatch (pool.get ⟨i, h⟩)))
          ∧ 0 < engineSim input (pool.get ⟨i, h⟩)
          ∧ (∀ j, ∀ hj : j < pool.length,
              engineSim input (pool.get ⟨j, hj⟩) ≤ engineSim input (pool.get ⟨i, h⟩))
          ∧ (∀ j, ∀ hj : j < pool.length, j < i →
              engineSim input (pool.get ⟨j, hj⟩) < engineSim input (pool.get ⟨i, h⟩))))
    ∧ (recognize_student_core input rows).confidence =
        (if (recognize_student_core input rows).success = true
          then some ((dbScan (dbProbe input) rows).1 * 100) else none)
    ∧ (recognize_student_core input rows).message =
        (if (recognize_student_core input rows).success = true
          then none else some "Student not recognized") := by
  refine ⟨?_, ?_, ?_, ?_⟩
  · unfold recognize_face_core
    by_cases hthr : thr ≤ (engineScan input pool).1
    · rw [if_pos hthr]
      cases hm : (engineScan input pool).2 with
      | some m => rfl
      | none =>
          exact (engineScan_go_none_zero input pool 0 none (fun _ => rfl) hm).symm
    · rw [if_neg hthr]
  · rcases engineScan_go_spec input pool 0 none with h | h
    · exact Or.inl ⟨h.1, h.2⟩
    · exact Or.inr h
  · unfold recognize_student_core
    cases hm : (dbScan (dbProbe input) rows).2 with
    | some row => simp
    | none => simp
  · unfold recognize_student_core
    cases hm : (dbScan (dbProbe input) rows).2 with
    | some row => simp
    | none => simp

/-- C10: a corrupt stored embedding elsewhere in the pool never makes
recognition fail.  In `recognize_face` the conversion error is caught
inside `cosine_similarity` (scoring the corrupt candidate 0.0, with the
loop's own `except: continue` as a second guard), so any candidate whose
similarity is positive and reaches the threshold forces `matched = true`;
in `recognize_student` an undecodable row is skipped by `except:
continue`, so any decodable row whose similarity exceeds 0.6 forces a
successful result, whatever else the pool contains. -/
theorem corrupt_candidate_skipped :
    (∀ (input : List ℝ) (pool : List EngineCandidate) (thr : ℝ)
        (c : EngineCandidate), c ∈ pool → thr ≤ engineSim input c →
        0 < engineSim input c → (recognize_face_core input pool thr).1 = true)
    ∧ (∀ (input : List ℝ) (rows : List StudentRow) (row : StudentRow)
        (e : List ℝ), row ∈ rows → row.embedding_blob = some e →
        db_recognition_threshold < dbRowSim (dbProbe input) e →
        (recognize_student_core input rows).success = true) := by
  constructor
  · intro input pool thr c hmem hthr hpos
    rcases engineScan_go_spec input pool 0 none with ⟨heq, hle⟩ | ⟨i, hi, heq, hgt, hmax, hfirst⟩
    · exact absurd hpos (not_lt.mpr (hle c hmem))
    · obtain ⟨⟨j, hj⟩, hcj⟩ := List.mem_iff_get.mp hmem
      have hcb : engineSim input c ≤ engineSim input (pool.get ⟨i, hi⟩) := by
        have := hmax j hj
        rwa [hcj] at this
      have hscan : engineScan input pool =
          (engineSim input (pool.get ⟨i, hi⟩), some (mkMatch (pool.get ⟨i, hi⟩))) := heq
      unfold recognize_face_core
      rw [hscan]
      rw [if_pos (le_trans hthr hcb)]
  · intro input rows row e hmem hblob hsim
    have hfind : ((dbScan (dbProbe input) rows).2).isSome = true :=
      dbScan_go_finds (dbProbe input) rows 0 none (fun _ => rfl)
        ⟨row, hmem, e, hblob, hsim⟩
    unfold recognize_student_core
    obtain ⟨row', hrow'⟩ := Option.isSome_iff_exists.mp hfind
    rw [hrow']

/-- C10 witness: pools holding one corrupt candidate followed by one
matching candidate: both recognizers succeed. -/
theorem corrupt_candidate_skipped_witness :
    (recognize_face_core [(1 : ℝ)]
      [⟨9, "X", "R9", none⟩, ⟨7, "A", "R1", some [(1 : ℝ)]⟩] (9 / 10)).1 = true
    ∧ (recognize_student_core [(1 : ℝ)]
        [⟨9, "X", "R9", none⟩, ⟨1, "A", "R1", some [(1 : ℝ)]⟩]).success = true := by
  have hsim : engineSim [(1 : ℝ)] ⟨7, "A", "R1", some [(1 : ℝ)]⟩ = 1 := by
    show engine_cosine_similarity [(1 : ℝ)] [(1 : ℝ)] = 1
    exact engine_cos_self_of_unit sumSquares_single_one
  constructor
  · refine corrupt_candidate_skipped.1 [(1 : ℝ)] _ (9 / 10)
      ⟨7, "A", "R1", some [(1 : ℝ)]⟩
      (List.mem_cons_of_mem _ (List.mem_cons_self _ _)) ?_ ?_
    · rw [hsim]; norm_num
    · rw [hsim]; norm_num
  · refine corrupt_candidate_skipped.2 [(1 : ℝ)] _
      ⟨1, "A", "R1", some [(1 : ℝ)]⟩ [(1 : ℝ)]
      (List.mem_cons_of_mem _ (List.mem_cons_self _ _)) rfl ?_
    rw [dbRowSim_self_single]
    unfold db_recognition_threshold
    norm_num

end SmartAttendance
